import Mathlib

/-!
Shallow embedding of the `tradingbot` repository (three Python modules:
`yahoo_top_movers.py`, `fetch_subsequent.py`, `populate_movers_csv.py`)
together with proofs about the claims of its specification.

Modelling conventions:
* Python floats are modelled as exact rationals (`ℚ`); `round(x, 2)` is
  modelled as round-half-up on rationals (see `round2`).  IEEE artifacts
  (binary representation error, signed zero, banker's tie-breaking at exact
  half-cents) are outside the model; no claim exercises a tie.
* Python exceptions are modelled with `Except PyErr`; an `Except.error`
  result of a top-level function models an exception escaping it.
* JSON objects (the persisted stores) are modelled as association lists
  `List (String × β)` with unique keys, as produced by `json.load`;
  `dictGet`/`dictSet` model Python `d.get`/`d[k] = v`.
* Calendar/timezone and network collaborators (yfinance, the market
  calendar, `zoneinfo`) are out-of-scope external interfaces per the spec;
  they are modelled as explicit oracle fields of an environment record.
-/

/-- A Python exception kind, as far as the modelled code can raise one. -/
inductive PyErr where
  | typeError
  | indexError
  deriving DecidableEq, Repr

/-- Model of Python `round(q, 2)` over exact rationals: round to the nearest
multiple of 1/100, halves up.  (CPython rounds halves to even on the binary
float representation; no modelled claim evaluates at an exact half-cent.) -/
def round2 (q : ℚ) : ℚ := (⌊q * 100 + 1 / 2⌋ : ℚ) / 100

/-- Render a natural number below 100 with two digits, as `"%02d"` would. -/
def pad2 (n : Nat) : String := if n < 10 then "0" ++ toString n else toString n

/-- Model of `_fmt_pct` (populate_movers_csv.py lines 73-76): `""` for `None`,
otherwise `f"{v:+.2f}%"`.  Call sites pass values already rounded to two
decimals; the model re-rounds, matching the format spec's rounding. -/
def fmtPct (v : Option ℚ) : String :=
  match v with
  | none => ""
  | some q =>
      let n : ℤ := ⌊q * 100 + 1 / 2⌋
      (if n < 0 then "-" else "+") ++ toString (n.natAbs / 100) ++ "." ++
        pad2 (n.natAbs % 100) ++ "%"

/-- First maximal run of non-whitespace characters, skipping leading
whitespace: the element `s.split()[0]` of Python's whitespace split, `none`
when the split list is empty. -/
def firstToken : List Char → Option (List Char)
  | [] => none
  | c :: cs =>
      if c.isWhitespace then firstToken cs
      else some (c :: cs.takeWhile (fun d => !d.isWhitespace))

/-- Model of `_clean_sym` (fetch_subsequent.py lines 68-71, and the identical
definition in populate_movers_csv.py lines 91-94): `""` for a falsy input,
otherwise `str(s).split()[0].upper().strip()`.  `split()[0]` raises
`IndexError` when the string is non-empty but all-whitespace; the first
whitespace-delimited token contains no whitespace, so `.strip()` is the
identity on it. -/
def cleanSym (s : String) : Except PyErr String :=
  if s = "" then .ok ""
  else
    match firstToken s.toList with
    | none => .error .indexError
    | some tok => .ok (String.mk (tok.map Char.toUpper))

/-- Character digit value, `none` for a non-digit. -/
def digitVal (c : Char) : Option Nat :=
  if c.isDigit then some (c.toNat - '0'.toNat) else none

/-- Model of parsing a stored event date with
`datetime.fromisoformat` / `strptime("%Y-%m-%d")`
(fetch_subsequent.py lines 103-111): accepts `YYYY-MM-DD` with a plausible
month and day, yielding the date encoded as the number `y*10000 + m*100 + d`
(an encoding that is strictly monotone in calendar order).  Strings that both
parsers reject yield `none`, which the caller treats as the
invalid-event-date skip. -/
def parseIsoDate (s : String) : Option Nat :=
  match s.toList with
  | [y1, y2, y3, y4, h1, m1, m2, h2, d1, d2] =>
      if h1 = '-' ∧ h2 = '-' then
        match digitVal y1, digitVal y2, digitVal y3, digitVal y4,
              digitVal m1, digitVal m2, digitVal d1, digitVal d2 with
        | some a, some b, some c, some d, some e, some f, some g, some h =>
            let y := ((a * 10 + b) * 10 + c) * 10 + d
            let m := e * 10 + f
            let dd := g * 10 + h
            if 1 ≤ m ∧ m ≤ 12 ∧ 1 ≤ dd ∧ dd ≤ 31 then
              some (y * 10000 + m * 100 + dd)
            else none
        | _, _, _, _, _, _, _, _ => none
      else none
  | _ => none

/-- Association-list read, modelling Python `d.get(k)` on a JSON object
(keys are unique as produced by `json.load`). -/
def dictGet {β : Type} : List (String × β) → String → Option β
  | [], _ => none
  | p :: rest, k => if p.1 = k then some p.2 else dictGet rest k

/-- Association-list write, modelling Python `d[k] = v`: replace in place
when the key exists, append at the end otherwise (dict insertion order). -/
def dictSet {β : Type} : List (String × β) → String → β → List (String × β)
  | [], k, v => [(k, v)]
  | p :: rest, k, v => if p.1 = k then (k, v) :: rest else p :: dictSet rest k v

theorem dictGet_dictSet_self {β : Type} (c : List (String × β)) (k : String) (v : β) :
    dictGet (dictSet c k v) k = some v := by
  induction c with
  | nil => simp [dictGet, dictSet]
  | cons p rest ih =>
      by_cases h : p.1 = k
      · simp [dictGet, dictSet, h]
      · simp [dictGet, dictSet, h, ih]

theorem dictGet_dictSet_ne {β : Type} (c : List (String × β)) (k k' : String) (v : β)
    (h : k' ≠ k) : dictGet (dictSet c k v) k' = dictGet c k' := by
  induction c with
  | nil => simp [dictGet, dictSet, Ne.symm h]
  | cons p rest ih =>
      by_cases hp : p.1 = k
      · simp [dictGet, dictSet, hp, Ne.symm h]
      · simp [dictGet, dictSet, hp, ih]

theorem dictGet_eq_none_not_mem {β : Type} (c : List (String × β)) (k : String)
    (h : dictGet c k = none) : k ∉ c.map Prod.fst := by
  induction c with
  | nil => simp
  | cons p rest ih =>
      by_cases hp : p.1 = k
      · simp [dictGet, hp] at h
      · simp only [dictGet] at h
        rw [if_neg hp] at h
        intro hk
        rw [List.map_cons] at hk
        rcases List.mem_cons.1 hk with h1 | h1
        · exact hp h1.symm
        · exact ih h h1

/-- A `DayObservation` as stored in `subsequent_cache.json`: the dict
`{"date": ..., "open": ..., "close": ..., "pct_long"?: ...}` built at
fetch_subsequent.py lines 202-204.  The date is kept in the encoded form
produced by `parseIsoDate` (the code round-trips it through
`date.isoformat()`/`strptime`, which is lossless). -/
structure Obs where
  dateN : Nat
  openQ : Option ℚ
  closeQ : Option ℚ
  pct_long : Option ℚ
  deriving DecidableEq, Repr

/-- A value of the subsequent-day cache as loaded from JSON.  List elements
are modelled as observation records: that is the only element shape the
programs ever write, and the only one whose reads the development verifies.
Non-list JSON values are kept in enough detail to reproduce Python `len`:
sized values (strings, objects) carry their length, unsized ones
(numbers, booleans, null) are the constructors on which `len` raises. -/
inductive CacheVal where
  | arr (days : List Obs)
  | str (len : Nat)
  | obj (len : Nat)
  | num (q : ℚ)
  | bool (b : Bool)
  | null
  deriving DecidableEq, Repr

/-- Model of Python `len` applied to a cache value: `TypeError` on numbers,
booleans and `None`. -/
def pyLen : CacheVal → Except PyErr Nat
  | .arr days => .ok days.length
  | .str n => .ok n
  | .obj n => .ok n
  | .num _ => .error .typeError
  | .bool _ => .error .typeError
  | .null => .error .typeError

/-- The subsequent-day cache (`subsequent_cache.json`): keys are
`TICKER|EVENT_DATE` composite keys. -/
def Cache : Type := List (String × CacheVal)

/-- A `MoverItem` of the mover store.  The scraped fields are strings
(possibly empty, Python-falsy); the enrichment fields `open`/`close`/
`change_pts` are numbers or `None`. -/
structure MoverItem where
  symbol : String
  name : String
  price : String
  change : String
  pct_change : String
  openQ : Option ℚ
  closeQ : Option ℚ
  change_pts : Option ℚ
  deriving DecidableEq, Repr

/-- A mover item carrying only a symbol, the shape relevant to the Tracker. -/
def mkItem (sym : String) : MoverItem := ⟨sym, "", "", "", "", none, none, none⟩

/-- One record of the mover store `movers.json`, keyed by event date. -/
structure MoversEntry where
  scraped_at : String
  gainers : List MoverItem
  losers : List MoverItem
  deriving DecidableEq, Repr

/-- The mover store (`movers.json`): event-date ISO string to record. -/
def Movers : Type := List (String × MoversEntry)

/-- One row of the daily price history after the conversion loop of
fetch_subsequent.py lines 126-148: trading date (as a New-York calendar
date, encoded) plus open and close, `None` when the source lacks them. -/
structure HistRow where
  dateN : Nat
  openQ : Option ℚ
  closeQ : Option ℚ
  deriving DecidableEq, Repr

/-- External collaborators of `fetch_one_round`, per spec section 6:
`hist t` is the converted daily-history row list for ticker `t` (`none`
models the yfinance fetch or iteration raising, lines 118-123/149-151; the
requested window `event_date+1 .. today+1` is absorbed into the oracle);
`complete d` is the session-completeness test `now_et >= d 20:00 ET` of
lines 170-188. -/
structure FetchEnv where
  hist : String → Option (List HistRow)
  complete : Nat → Bool

/-- The day object built at fetch_subsequent.py lines 196-204 from the
candidate row's open and close: open and close are stored rounded to two
decimals; `pct_long = round((close-open)/open*100, 2)` is computed from the
unrounded values and stored only when `open != 0`. -/
def mkDayObs (dateN : Nat) (o c : ℚ) : Obs :=
  { dateN := dateN
    openQ := some (round2 o)
    closeQ := some (round2 c)
    pct_long := if o ≠ 0 then some (round2 ((c - o) / o * 100)) else none }

/-- The body of the per-mover loop of `fetch_one_round`
(fetch_subsequent.py lines 93-211), for one item of one event date:
returns the updated cache and the number of appended days (0 or 1), or the
Python exception that escapes the loop body.  Branches in source order:
symbol cleaning, empty-ticker skip, cap check via `len`, event-date parse,
history fetch, filter to dates strictly after the event date, candidate at
index `len(days_list)`, session-completeness gate, missing-OHLC skip,
append (replacing a non-list cache value by a fresh list, lines 207-209). -/
def processItem (env : FetchEnv) (maxDays : Nat) (eventDate : String)
    (cache : Cache) (it : MoverItem) : Except PyErr (Cache × Nat) :=
  match cleanSym it.symbol with
  | .error e => .error e
  | .ok ticker =>
    if ticker = "" then .ok (cache, 0)
    else
      let key := ticker ++ "|" ++ eventDate
      match pyLen ((dictGet cache key).getD (.arr [])) with
      | .error e => .error e
      | .ok n =>
        if maxDays ≤ n then .ok (cache, 0)
        else
          match parseIsoDate eventDate with
          | none => .ok (cache, 0)
          | some eventN =>
            match env.hist ticker with
            | none => .ok (cache, 0)
            | some histRows =>
              let rows := histRows.filter (fun r => eventN < r.dateN)
              match rows[n]? with
              | none => .ok (cache, 0)
              | some cand =>
                if env.complete cand.dateN then
                  match cand.openQ, cand.closeQ with
                  | some o, some c =>
                    let oldDays :=
                      match dictGet cache key with
                      | some (.arr ds) => ds
                      | _ => []
                    .ok (dictSet cache key
                           (.arr (oldDays ++ [mkDayObs cand.dateN o c])), 1)
                  | _, _ => .ok (cache, 0)
                else .ok (cache, 0)

/-- String order used to model Python `sorted` on date keys: `s ≤ t`. -/
def strLe (s t : String) : Bool := !(decide (t < s))

/-- Insert into a `strLe`-sorted list, keeping it sorted. -/
def insSorted (s : String) : List String → List String
  | [] => [s]
  | t :: ts => if strLe s t then s :: t :: ts else t :: insSorted s ts

/-- Insertion sort on strings, modelling Python `sorted`. -/
def sortStrs (l : List String) : List String := l.foldr insSorted []

/-- The iteration space of `fetch_one_round` (lines 89-92): for each
non-empty event-date key in sorted order, the entry's gainers followed by
its losers, each paired with the event date. -/
def itemsOf (movers : Movers) : List (String × MoverItem) :=
  (sortStrs ((movers.map Prod.fst).filter (fun k => k ≠ ""))).foldr
    (fun d acc =>
      (match dictGet movers d with
       | some e => (e.gainers ++ e.losers).map (fun it => (d, it))
       | none => []) ++ acc) []

/-- The main loop of `fetch_one_round`, threading the cache and the
`appended` counter through the items; an exception raised by a loop body
escapes the whole operation. -/
def fetchLoop (env : FetchEnv) (maxDays : Nat) :
    List (String × MoverItem) → Cache → Nat → Except PyErr (Nat × Cache)
  | [], cache, acc => .ok (acc, cache)
  | (d, it) :: rest, cache, acc =>
      match processItem env maxDays d cache it with
      | .error e => .error e
      | .ok (c', k) => fetchLoop env maxDays rest c' (acc + k)

/-- Model of `fetch_one_round` (fetch_subsequent.py lines 74-221): returns
the `appended` count and the final cache content.  The atomic save of the
cache file happens iff `appended > 0`; since the loop mutates the cache
exactly when it increments `appended`, the returned cache equals the
persisted store content in either case. -/
def fetchOneRound (env : FetchEnv) (maxDays : Nat) (movers : Movers)
    (cache : Cache) : Except PyErr (Nat × Cache) :=
  fetchLoop env maxDays (itemsOf movers) cache 0

/-- The per-observation percent value used by the Aggregator
(populate_movers_csv.py lines 257-260 and the identical lines 290-292):
the stored `pct_long` when present, otherwise recomputed as
`round((close-open)/open*100, 2)` from the stored open and close when both
are present and the stored open is nonzero; `none` otherwise.
(`_ensure_number` is the identity on the number-or-null fields the cache
holds in this model.) -/
def obsPct (d : Obs) : Option ℚ :=
  match d.pct_long with
  | some p => some p
  | none =>
      match d.openQ, d.closeQ with
      | some o, some c => if o ≠ 0 then some (round2 ((c - o) / o * 100)) else none
      | _, _ => none

/-- The Aggregator's independent fallback recomputation of the percent
return (populate_movers_csv.py lines 259-260) applied to a stored
open/close pair, regardless of whether a stored `pct_long` is present. -/
def aggFallbackPct (o c : Option ℚ) : Option ℚ :=
  match o, c with
  | some ov, some cv => if ov ≠ 0 then some (round2 ((cv - ov) / ov * 100)) else none
  | _, _ => none

/-- The cohort-bucket contributions of one observation of one mover row
pair (populate_movers_csv.py lines 265-272): nothing when the observation
carries no percent value, otherwise the long value and its negation into
the two cohorts of the item's mover type. -/
def bucketContribution (moverLabel : String) (d : Obs) : List (String × ℚ) :=
  match obsPct d with
  | none => []
  | some p =>
      if moverLabel = "gainer" then [("gainer_long", p), ("gainer_short", -p)]
      else [("loser_long", p), ("loser_short", -p)]

/-- The `Day N %` cell of a direction row (populate_movers_csv.py lines
284-297) for an observation present in the cache: blank when the
observation carries no percent value, otherwise the formatted value, the
long percent or its negation according to the row's direction. -/
def pctCell (direction : String) (d : Obs) : String :=
  match obsPct d with
  | none => ""
  | some p => fmtPct (some (if direction = "long" then p else -p))

/-- The compounding loop of `_compute_summary_rows`
(populate_movers_csv.py lines 155-157): `prod = 1.0; for r in R: prod *= (1.0 + r / 100.0)`. -/
def compoundedProd (R : List ℚ) : ℚ := R.foldl (fun p r => p * (1 + r / 100)) 1

/-- The `Total ... Return (%)` summary cell for one offset
(populate_movers_csv.py lines 149-162): blank when the bucket is empty,
otherwise the compounded total return rounded to two decimals and
formatted. -/
def totalCell (R : List ℚ) : String :=
  if R.length = 0 then ""
  else fmtPct (some (round2 ((compoundedProd R - 1) * 100)))

/-- The `Win Rate ... (%)` summary cell (populate_movers_csv.py lines
159, 163): `100 * count(r > 0) / N`, rounded and formatted; blank when the
bucket is empty. -/
def winCell (R : List ℚ) : String :=
  if R.length = 0 then ""
  else fmtPct (some (round2 (100 * ((R.countP (fun r => decide (0 < r))) : ℚ) / (R.length : ℚ))))

/-- The `Avg Daily Return ... (%)` summary cell (populate_movers_csv.py
lines 160, 164): `sum(R) / N`, rounded and formatted; blank when the
bucket is empty. -/
def avgCell (R : List ℚ) : String :=
  if R.length = 0 then ""
  else fmtPct (some (round2 (R.sum / (R.length : ℚ))))

/-- Enrichment detail for one symbol, the result of `fetch_symbol_details`
(yahoo_top_movers.py lines 75-96), every field possibly absent. -/
structure Detail where
  openQ : Option ℚ
  closeQ : Option ℚ
  change_pts : Option ℚ

/-- The symbol extraction of `enrich_pool` (yahoo_top_movers.py line 171):
`item.get("symbol", "").split()[0] if item.get("symbol") else ""`.
No upper-casing here, unlike `_clean_sym`; `split()[0]` raises `IndexError`
on a whitespace-only symbol. -/
def symOf (it : MoverItem) : Except PyErr String :=
  if it.symbol = "" then .ok ""
  else
    match firstToken it.symbol.toList with
    | none => .error .indexError
    | some tok => .ok (String.mk tok)

/-- One step of `enrich_pool` (yahoo_top_movers.py lines 169-178): a blank
symbol nulls the enrichment fields, otherwise they are filled from the
per-symbol detail source. -/
def enrichItem (detail : String → Detail) (it : MoverItem) :
    Except PyErr MoverItem :=
  match symOf it with
  | .error e => .error e
  | .ok sym =>
      if sym = "" then
        .ok { it with openQ := none, closeQ := none, change_pts := none }
      else
        .ok { it with openQ := (detail sym).openQ, closeQ := (detail sym).closeQ,
                      change_pts := (detail sym).change_pts }

/-- `enrich_pool` over a list of items, stopping at the first escaping
exception. -/
def enrichPool (detail : String → Detail) :
    List MoverItem → Except PyErr (List MoverItem)
  | [] => .ok []
  | it :: rest =>
      match enrichItem detail it with
      | .error e => .error e
      | .ok it' =>
          match enrichPool detail rest with
          | .error e => .error e
          | .ok rest' => .ok (it' :: rest')

/-- The per-item test of the `has_data` gate (yahoo_top_movers.py line
207): `(item.get("close") is not None) or item.get("pct_change")`, the
second disjunct with Python string truthiness. -/
def hasNumericSignal (it : MoverItem) : Bool :=
  it.closeQ.isSome || it.pct_change ≠ ""

/-- Environment of one `run_and_persist` invocation (yahoo_top_movers.py
lines 181-218): the computed date string and timestamp, the calendar and
cutoff oracle answers for that moment, the scraped ranked lists, and the
per-symbol detail source used by enrichment. -/
structure AcqEnv where
  today : String
  nowIso : String
  marketDay : Bool
  cutoffPassed : Bool
  gainers : List MoverItem
  losers : List MoverItem
  detail : String → Detail

/-- Model of `run_and_persist` (yahoo_top_movers.py lines 181-218) as a
function on the mover store: gates in source order (market day, cutoff,
empty scrape, `has_data` after enrichment, existing date key), then the
write-once persist of the enriched record.  The store is read and written
only after every gate, so every early return and every escaping exception
leaves it unchanged; the CSV/Tracker calls after the save (lines 220-240)
do not touch the mover store. -/
def runAndPersist (env : AcqEnv) (store : Movers) : Except PyErr Movers :=
  if ¬env.marketDay then .ok store
  else if ¬env.cutoffPassed then .ok store
  else if env.gainers ++ env.losers = [] then .ok store
  else
    match enrichPool env.detail env.gainers with
    | .error e => .error e
    | .ok g =>
        match enrichPool env.detail env.losers with
        | .error e => .error e
        | .ok l =>
            if ¬((g ++ l).any hasNumericSignal) then .ok store
            else if (dictGet store env.today).isSome then .ok store
            else .ok (dictSet store env.today ⟨env.nowIso, g, l⟩)

/-- One loop body of `fetch_one_round` preserves the length cap on every
well-formed cache and never touches a series that already has `maxDays`
entries. -/
theorem processItem_preserves (env : FetchEnv) (maxDays : Nat) (d : String)
    (cache : Cache) (it : MoverItem) (c' : Cache) (k : Nat)
    (h : processItem env maxDays d cache it = .ok (c', k))
    (hwf : ∀ key v, dictGet cache key = some v →
      ∃ ds, v = CacheVal.arr ds ∧ ds.length ≤ maxDays) :
    (∀ key v, dictGet c' key = some v →
      ∃ ds, v = CacheVal.arr ds ∧ ds.length ≤ maxDays)
    ∧ (∀ key ds, dictGet cache key = some (CacheVal.arr ds) → ds.length = maxDays →
        dictGet c' key = some (CacheVal.arr ds)) := by
  simp only [processItem] at h
  split at h
  · exact absurd h (by simp)
  next ticker hticker =>
    split at h
    · cases h
      exact ⟨hwf, fun _ _ h1 _ => h1⟩
    next hne =>
      split at h
      · exact absurd h (by simp)
      next n hn =>
        split at h
        · cases h
          exact ⟨hwf, fun _ _ h1 _ => h1⟩
        next hcap =>
          split at h
          · cases h
            exact ⟨hwf, fun _ _ h1 _ => h1⟩
          next eventN hev =>
            split at h
            · cases h
              exact ⟨hwf, fun _ _ h1 _ => h1⟩
            next histRows hhist =>
              split at h
              · cases h
                exact ⟨hwf, fun _ _ h1 _ => h1⟩
              next cand hcand =>
                split at h
                · split at h
                  next o c hoc =>
                    -- append branch
                    rw [Except.ok.injEq, Prod.mk.injEq] at h
                    obtain ⟨hc', -⟩ := h
                    subst hc'
                    push_neg at hcap
                    cases hv : dictGet cache (ticker ++ "|" ++ d) with
                    | none =>
                        rw [hv] at hn
                        simp only [Option.getD_none, pyLen, Except.ok.injEq] at hn
                        subst hn
                        simp only [List.length_nil] at hcap
                        constructor
                        · intro key' v hget
                          by_cases hk : key' = ticker ++ "|" ++ d
                          · subst hk
                            rw [dictGet_dictSet_self] at hget
                            cases hget
                            refine ⟨_, rfl, ?_⟩
                            simpa using hcap
                          · rw [dictGet_dictSet_ne _ _ _ _ hk] at hget
                            exact hwf _ _ hget
                        · intro key' ds hds hlen
                          by_cases hk : key' = ticker ++ "|" ++ d
                          · subst hk
                            rw [hv] at hds
                            cases hds
                          · rw [dictGet_dictSet_ne _ _ _ _ hk]
                            exact hds
                    | some v =>
                        obtain ⟨ds, rfl, hle⟩ := hwf _ _ hv
                        rw [hv] at hn
                        simp only [Option.getD_some, pyLen, Except.ok.injEq] at hn
                        subst hn
                        constructor
                        · intro key' v hget
                          by_cases hk : key' = ticker ++ "|" ++ d
                          · subst hk
                            rw [dictGet_dictSet_self] at hget
                            cases hget
                            refine ⟨_, rfl, ?_⟩
                            simp only [List.length_append, List.length_cons,
                              List.length_nil]
                            omega
                          · rw [dictGet_dictSet_ne _ _ _ _ hk] at hget
                            exact hwf _ _ hget
                        · intro key' ds' hds hlen
                          by_cases hk : key' = ticker ++ "|" ++ d
                          · subst hk
                            rw [hv] at hds
                            cases hds
                            omega
                          · rw [dictGet_dictSet_ne _ _ _ _ hk]
                            exact hds
                  · cases h
                    exact ⟨hwf, fun _ _ h1 _ => h1⟩
                · cases h
                  exact ⟨hwf, fun _ _ h1 _ => h1⟩

/-- The whole `fetch_one_round` loop preserves the length cap and fixes
capped series. -/
theorem fetchLoop_preserves (env : FetchEnv) (maxDays : Nat) :
    ∀ (l : List (String × MoverItem)) (cache : Cache) (acc n : Nat) (c' : Cache),
    fetchLoop env maxDays l cache acc = .ok (n, c') →
    (∀ key v, dictGet cache key = some v →
      ∃ ds, v = CacheVal.arr ds ∧ ds.length ≤ maxDays) →
    (∀ key v, dictGet c' key = some v →
      ∃ ds, v = CacheVal.arr ds ∧ ds.length ≤ maxDays)
    ∧ (∀ key ds, dictGet cache key = some (CacheVal.arr ds) → ds.length = maxDays →
        dictGet c' key = some (CacheVal.arr ds)) := by
  intro l
  induction l with
  | nil =>
      intro cache acc n c' h hwf
      simp only [fetchLoop, Except.ok.injEq, Prod.mk.injEq] at h
      obtain ⟨-, rfl⟩ := h
      exact ⟨hwf, fun _ _ h1 _ => h1⟩
  | cons p rest ih =>
      intro cache acc n c' h hwf
      simp only [fetchLoop] at h
      split at h
      · exact absurd h (by simp)
      next c₁ k hstep =>
        obtain ⟨hwf₁, hfix₁⟩ := processItem_preserves env maxDays p.1 cache p.2 c₁ k hstep hwf
        obtain ⟨hwf₂, hfix₂⟩ := ih c₁ (acc + k) n c' h hwf₁
        refine ⟨hwf₂, fun key ds hds hlen => ?_⟩
        exact hfix₂ key ds (hfix₁ key ds hds hlen) hlen

/-- Claim C2: once a tracked series has `max_days` entries, an invocation of
`fetch_one_round` leaves it unchanged, and the invariant that every series
has at most `max_days` entries is preserved for every cache state in which
it already holds, regardless of the movers store, the available price
history and the calendar oracle. -/
theorem fetchOneRound_cap_invariant (env : FetchEnv) (maxDays : Nat)
    (movers : Movers) (cache : Cache) (n : Nat) (c' : Cache)
    (hrun : fetchOneRound env maxDays movers cache = .ok (n, c'))
    (hwf : ∀ key v, dictGet cache key = some v →
      ∃ ds, v = CacheVal.arr ds ∧ ds.length ≤ maxDays) :
    (∀ key v, dictGet c' key = some v →
      ∃ ds, v = CacheVal.arr ds ∧ ds.length ≤ maxDays)
    ∧ (∀ key ds, dictGet cache key = some (CacheVal.arr ds) → ds.length = maxDays →
        dictGet c' key = some (CacheVal.arr ds)) :=
  fetchLoop_preserves env maxDays (itemsOf movers) cache 0 n c' hrun hwf

/-- An observation with no price fields, used to build a full series. -/
def obsBare : Obs := ⟨20240103, none, none, none⟩

/-- A tracked series that has reached the cap of 11 entries. -/
def elevenDays : List Obs := List.replicate 11 obsBare

/-- A cache in which the key `AAPL|2024-01-02` is at the cap. -/
def capCache : Cache := [("AAPL|2024-01-02", CacheVal.arr elevenDays)]

/-- A mover store naming that same ticker and event date. -/
def capMovers : Movers := [("2024-01-02", ⟨"", [mkItem "AAPL"], []⟩)]

/-- An environment offering two further complete trading days, so that only
the cap prevents an append. -/
def capEnv : FetchEnv :=
  { hist := fun _ => some [⟨20240103, some 1, some 2⟩, ⟨20240104, some 2, some 4⟩]
    complete := fun _ => true }

/-- Witness for C2 at a concrete input: a series at the cap survives a run
that offers further history, unchanged. -/
theorem fetchOneRound_cap_invariant_witness :
    dictGet capCache "AAPL|2024-01-02" = some (CacheVal.arr elevenDays) :=
  (fetchOneRound_cap_invariant capEnv 11 capMovers capCache 0 capCache
    (by simp [fetchOneRound, fetchLoop, itemsOf, capMovers, capCache, capEnv,
          sortStrs, insSorted, dictGet, processItem, cleanSym, firstToken,
          mkItem, pyLen, elevenDays])
    (by
      intro key v h
      by_cases hk : ("AAPL|2024-01-02" : String) = key
      · simp only [capCache, dictGet, if_pos hk, Option.some.injEq] at h
        exact ⟨elevenDays, h.symm, by simp [elevenDays]⟩
      · simp [capCache, dictGet, hk] at h)).2
    "AAPL|2024-01-02" elevenDays (by simp [capCache, dictGet]) (by simp [elevenDays])

/-- A price-history oracle for `AAPL` offering two valid, complete
subsequent trading days after 2024-01-02. -/
def dupEnv : FetchEnv :=
  { hist := fun t => if t = "AAPL" then
      some [⟨20240103, some 1, some 2⟩, ⟨20240104, some 2, some 4⟩] else none
    complete := fun _ => true }

/-- A mover store in which the same symbol occurs twice under one event
date (nothing in the code or the store schema rules this out: the gainers
and losers lists are persisted exactly as scraped). -/
def dupMovers : Movers :=
  [("2024-01-02", ⟨"", [mkItem "AAPL", mkItem "AAPL"], []⟩)]

/-- Claim C1: the claim states that one invocation of `fetch_one_round`
appends at most one observation per `TICKER|EVENT_DATE` key.  The code
re-reads the cache entry inside the item loop after mutating it in place,
so when a key occurs twice in the scan, one run appends two observations
to it — contradicting the module's own docstring ("Append only one new
day per key per run").  This theorem evaluates the code at such an input:
starting from an empty cache, one run returns `appended = 2` and a series
of length two under the single key `AAPL|2024-01-02`. -/
theorem fetchOneRound_appends_twice_same_key :
    fetchOneRound dupEnv 11 dupMovers [] =
      .ok (2, [("AAPL|2024-01-02",
        CacheVal.arr [mkDayObs 20240103 1 2, mkDayObs 20240104 2 4])]) := by
  simp [fetchOneRound, fetchLoop, itemsOf, dupMovers, dupEnv, sortStrs, insSorted,
        dictGet, dictSet, processItem, cleanSym, firstToken, mkItem, pyLen,
        parseIsoDate, digitVal]

/-- A cache whose value under the key `AAPL|2024-01-02` is a JSON number,
not a list. -/
def nonListCache : Cache := [("AAPL|2024-01-02", CacheVal.num 5)]

/-- A history oracle for the non-list-cache run (never reached: the crash
happens at the `len` call before the fetch). -/
def nonListEnv : FetchEnv :=
  { hist := fun t => if t = "AAPL" then
      some [⟨20240103, some 1, some 2⟩, ⟨20240104, some 2, some 4⟩] else none
    complete := fun _ => true }

/-- A mover store naming that ticker and event date. -/
def nonListMovers : Movers := [("2024-01-02", ⟨"", [mkItem "AAPL"], []⟩)]

/-- Claim C9: the claim states that a non-list cache value makes the code
skip that key, leave its stored value as-is and process the rest of the
store.  The guard at fetch_subsequent.py line 97 tests
`isinstance(cache, dict)` instead of testing the value, so
`len(days_list)` at line 98 is applied to the raw value: for a JSON
number this raises `TypeError`, which no handler catches, and the whole
`fetch_one_round` run aborts instead of skipping the key.  (The same
wrong-object guard is at populate_movers_csv.py line 246, where
`len(days_list)` at line 253 raises likewise.)  This theorem evaluates
the code at such an input. -/
theorem fetchOneRound_nonlist_cache_raises :
    fetchOneRound nonListEnv 11 nonListMovers nonListCache = .error .typeError := by
  simp [fetchOneRound, fetchLoop, itemsOf, nonListMovers, nonListCache, nonListEnv,
        sortStrs, insSorted, dictGet, processItem, cleanSym, firstToken, mkItem,
        pyLen]

/-- A mover store containing an item whose symbol is a single space. -/
def wsMovers : Movers := [("2024-01-02", ⟨"", [mkItem " "], []⟩)]

/-- An environment that never has to be consulted: the crash happens while
cleaning the symbol, before any external call. -/
def wsEnv : FetchEnv := ⟨fun _ => none, fun _ => false⟩

/-- Claim C10: the claim states that no exception escapes the top-level
operations for any store content, including whitespace-only symbol
fields.  `_clean_sym` (fetch_subsequent.py lines 68-71) guards only
against falsy input (`if not s`), so a whitespace-only symbol reaches
`str(s).split()[0]`, where `split()` returns an empty list and the index
raises `IndexError`; no handler in `fetch_one_round` catches it.
`populate_movers_csv.py` lines 91-94 define the identical `_clean_sym`
and call it at line 214 equally unguarded, so the same store content
crashes `populate_from_movers` too.  This theorem evaluates
`fetch_one_round` at such an input. -/
theorem fetchOneRound_whitespace_symbol_raises :
    fetchOneRound wsEnv 11 wsMovers [] = .error .indexError := by
  simp [fetchOneRound, fetchLoop, itemsOf, wsMovers, sortStrs, insSorted, dictGet,
        processItem, cleanSym, firstToken, mkItem]

/-- Claim C3: every observation that `fetch_one_round` appends is built
from a candidate whose open and close are both present, and carries
`pct_long = round((close-open)/open*100, 2)` computed from those values
when the open is nonzero, and no `pct_long` field at all when the open is
zero. -/
theorem processItem_append_pct_policy (env : FetchEnv) (maxDays : Nat)
    (d : String) (cache : Cache) (it : MoverItem) (c' : Cache)
    (h : processItem env maxDays d cache it = .ok (c', 1)) :
    ∃ key days ob, c' = dictSet cache key (CacheVal.arr (days ++ [ob]))
      ∧ ∃ o c : ℚ, ob.openQ = some (round2 o) ∧ ob.closeQ = some (round2 c)
        ∧ ((o ≠ 0 ∧ ob.pct_long = some (round2 ((c - o) / o * 100)))
           ∨ (o = 0 ∧ ob.pct_long = none)) := by
  simp only [processItem] at h
  split at h
  · exact absurd h (by simp)
  next ticker hticker =>
    split at h
    · exact absurd h (by simp)
    next hne =>
      split at h
      · exact absurd h (by simp)
      next n hn =>
        split at h
        · exact absurd h (by simp)
        next hcap =>
          split at h
          · exact absurd h (by simp)
          next eventN hev =>
            split at h
            · exact absurd h (by simp)
            next histRows hhist =>
              split at h
              · exact absurd h (by simp)
              next cand hcand =>
                split at h
                · split at h
                  next o c ho hc =>
                    rw [Except.ok.injEq, Prod.mk.injEq] at h
                    obtain ⟨hc', -⟩ := h
                    refine ⟨ticker ++ "|" ++ d, _, mkDayObs cand.dateN o c,
                      hc'.symm, o, c, rfl, rfl, ?_⟩
                    by_cases ho : o = 0
                    · exact Or.inr ⟨ho, by simp [mkDayObs, ho]⟩
                    · exact Or.inl ⟨ho, by simp [mkDayObs, ho]⟩
                  · exact absurd h (by simp)
                · exact absurd h (by simp)

/-- A history oracle offering one complete day with open 4 and close 5. -/
def pctEnv : FetchEnv := ⟨fun _ => some [⟨20240103, some 4, some 5⟩], fun _ => true⟩

/-- Witness for C3 at a concrete input: appending the day with open 4 and
close 5 to an empty cache. -/
theorem processItem_append_pct_policy_witness :
    ∃ key days ob,
      ([("MSFT|2024-01-02", CacheVal.arr [mkDayObs 20240103 4 5])] : Cache)
        = dictSet ([] : Cache) key (CacheVal.arr (days ++ [ob]))
      ∧ ∃ o c : ℚ, ob.openQ = some (round2 o) ∧ ob.closeQ = some (round2 c)
        ∧ ((o ≠ 0 ∧ ob.pct_long = some (round2 ((c - o) / o * 100)))
           ∨ (o = 0 ∧ ob.pct_long = none)) :=
  processItem_append_pct_policy pctEnv 11 "2024-01-02" [] (mkItem "MSFT") _
    (by simp [processItem, pctEnv, cleanSym, firstToken, mkItem, dictGet, dictSet,
          pyLen, parseIsoDate, digitVal])

/-- Claim C4: over a non-empty collected return list `R`, the summary
cells equal the compounded total `(prod (1+r/100) - 1) * 100`, the win
rate `100 * count(r>0) / N` and the average `sum(R)/N`, each rounded to
two decimals and formatted; an empty bucket leaves the cell blank; and on
`R = [10, -10]` the three cells read `-1.00%`, `+50.00%` and `+0.00%`. -/
theorem summary_cells_spec :
    (∀ R : List ℚ, R ≠ [] →
        totalCell R =
          fmtPct (some (round2 (((R.map (fun r => 1 + r / 100)).prod - 1) * 100)))
        ∧ winCell R =
          fmtPct (some (round2 (100 * ((R.countP (fun r => decide (0 < r))) : ℚ) / (R.length : ℚ))))
        ∧ avgCell R = fmtPct (some (round2 (R.sum / (R.length : ℚ)))))
    ∧ (totalCell [] = "" ∧ winCell [] = "" ∧ avgCell [] = "")
    ∧ (totalCell [10, -10] = "-1.00%" ∧ winCell [10, -10] = "+50.00%"
        ∧ avgCell [10, -10] = "+0.00%") := by
  refine ⟨fun R hR => ?_, by simp [totalCell, winCell, avgCell], ?_, ?_, ?_⟩
  · have hlen : R.length ≠ 0 := by simpa using hR
    have hprod : compoundedProd R = (R.map (fun r => 1 + r / 100)).prod := by
      rw [compoundedProd, List.prod_eq_foldl, List.foldl_map]
    exact ⟨by rw [totalCell, if_neg hlen, hprod], by rw [winCell, if_neg hlen],
      by rw [avgCell, if_neg hlen]⟩
  · norm_num [totalCell, compoundedProd, round2, fmtPct, pad2]
    rfl
  · norm_num [winCell, round2, fmtPct, pad2]
    rfl
  · norm_num [avgCell, round2, fmtPct, pad2]
    rfl

/-- Witness for C4's general part at the concrete bucket `[10, -10]`. -/
theorem summary_cells_spec_witness :
    totalCell [10, -10] =
      fmtPct (some (round2 (((([10, -10] : List ℚ).map (fun r => 1 + r / 100)).prod - 1) * 100)))
    ∧ winCell [10, -10] =
      fmtPct (some (round2 (100 * ((([10, -10] : List ℚ).countP (fun r => decide (0 < r))) : ℚ) / (([10, -10] : List ℚ).length : ℚ))))
    ∧ avgCell [10, -10] =
      fmtPct (some (round2 (([10, -10] : List ℚ).sum / (([10, -10] : List ℚ).length : ℚ)))) :=
  summary_cells_spec.1 [10, -10] (by simp)

/-- A history oracle offering one complete day with open 1.004 and close
2.004 (as exact rationals). -/
def cexEnv : FetchEnv :=
  ⟨fun _ => some [⟨20240103, some (251/250), some (501/250)⟩], fun _ => true⟩

/-- A mover store naming one ticker for that event date. -/
def cexMovers : Movers := [("2024-01-02", ⟨"", [mkItem "XYZ"], []⟩)]

/-- Claim C5, counterexample: the Tracker computes `pct_long` from the raw
open/close but stores open/close rounded to two decimals, so the
Aggregator's independent fallback recomputation from the stored values
need not agree.  For open 1.004 and close 2.004 the appended observation
stores open 1.00, close 2.00 and `pct_long = 99.60`, while the fallback
recomputation from the stored values gives `100.00`. -/
theorem tracker_agg_roundtrip_cex :
    fetchOneRound cexEnv 11 cexMovers [] =
      .ok (1, [("XYZ|2024-01-02",
        CacheVal.arr [mkDayObs 20240103 (251/250) (501/250)])])
    ∧ (mkDayObs 20240103 (251/250) (501/250)).pct_long = some (498/5)
    ∧ aggFallbackPct (mkDayObs 20240103 (251/250) (501/250)).openQ
        (mkDayObs 20240103 (251/250) (501/250)).closeQ = some 100
    ∧ (mkDayObs 20240103 (251/250) (501/250)).pct_long ≠
        aggFallbackPct (mkDayObs 20240103 (251/250) (501/250)).openQ
          (mkDayObs 20240103 (251/250) (501/250)).closeQ := by
  have h1 : fetchOneRound cexEnv 11 cexMovers [] =
      .ok (1, [("XYZ|2024-01-02",
        CacheVal.arr [mkDayObs 20240103 (251/250) (501/250)])]) := by
    simp [fetchOneRound, fetchLoop, itemsOf, cexMovers, cexEnv, sortStrs, insSorted,
          dictGet, dictSet, processItem, cleanSym, firstToken, mkItem, pyLen,
          parseIsoDate, digitVal]
  have h2 : (mkDayObs 20240103 (251/250) (501/250)).pct_long = some (498/5) := by
    norm_num [mkDayObs, round2]
  have h3 : aggFallbackPct (mkDayObs 20240103 (251/250) (501/250)).openQ
      (mkDayObs 20240103 (251/250) (501/250)).closeQ = some 100 := by
    norm_num [mkDayObs, aggFallbackPct, round2]
  refine ⟨h1, h2, h3, ?_⟩
  rw [h2, h3]
  norm_num

/-- Claim C5 (amended): when the open and close the Tracker receives are
already exact two-decimal values (so rounding them for storage loses
nothing) and the open is nonzero, the stored `pct_long` and the
Aggregator's fallback recomputation from the stored open/close agree. -/
theorem tracker_agg_roundtrip_two_decimal_inputs (dn : Nat) (o c : ℚ)
    (ho : o ≠ 0) (ho2 : round2 o = o) (hc2 : round2 c = c) :
    aggFallbackPct (mkDayObs dn o c).openQ (mkDayObs dn o c).closeQ
      = (mkDayObs dn o c).pct_long := by
  simp [mkDayObs, aggFallbackPct, ho, ho2, hc2]

/-- Witness for the amended C5 at open 1, close 2. -/
theorem tracker_agg_roundtrip_two_decimal_inputs_witness :
    aggFallbackPct (mkDayObs 0 1 2).openQ (mkDayObs 0 1 2).closeQ
      = (mkDayObs 0 1 2).pct_long :=
  tracker_agg_roundtrip_two_decimal_inputs 0 1 2 (by norm_num)
    (by norm_num [round2]) (by norm_num [round2])

/-- Claim C6: an observation stored with open 0 (and therefore no
`pct_long` field, per C3) is excluded by the Aggregator from every cohort
bucket at its offset, and its `Day N %` cell is blank in both direction
rows — it is neither counted as a 0% return nor treated as an error. -/
theorem zero_open_excluded (d : Obs) (h0 : d.openQ = some 0)
    (hp : d.pct_long = none) :
    obsPct d = none ∧ (∀ lbl, bucketContribution lbl d = [])
    ∧ pctCell "long" d = "" ∧ pctCell "short" d = "" := by
  have h : obsPct d = none := by
    cases hc : d.closeQ <;> simp [obsPct, h0, hp, hc]
  exact ⟨h, fun lbl => by simp [bucketContribution, h], by simp [pctCell, h],
    by simp [pctCell, h]⟩

/-- Witness for C6 at a concrete observation with open 0 and close 5. -/
theorem zero_open_excluded_witness :
    obsPct ⟨20240103, some 0, some 5, none⟩ = none
    ∧ bucketContribution "gainer" ⟨20240103, some 0, some 5, none⟩ = []
    ∧ pctCell "long" ⟨20240103, some 0, some 5, none⟩ = ""
    ∧ pctCell "short" ⟨20240103, some 0, some 5, none⟩ = "" :=
  let t := zero_open_excluded ⟨20240103, some 0, some 5, none⟩ rfl rfl
  ⟨t.1, t.2.1 "gainer", t.2.2.1, t.2.2.2⟩

/-- Writing a fresh key appends it to the key sequence. -/
theorem dictSet_map_fst_of_none {β : Type} (c : List (String × β)) (k : String)
    (v : β) (h : dictGet c k = none) :
    (dictSet c k v).map Prod.fst = c.map Prod.fst ++ [k] := by
  induction c with
  | nil => simp [dictSet]
  | cons p rest ih =>
      by_cases hp : p.1 = k
      · simp [dictGet, hp] at h
      · simp only [dictGet] at h
        rw [if_neg hp] at h
        simp [dictSet, hp, ih h]

/-- Claim C7: `run_and_persist` is write-once per date key — when the
store already holds a record for today's key the run leaves the store
unchanged — and idempotent: running it again on the outcome of any
successful run reproduces that outcome exactly, and distinct date keys
stay distinct (no duplicate date entries). -/
theorem runAndPersist_idempotent (env : AcqEnv) (store s₁ : Movers)
    (h : runAndPersist env store = .ok s₁) :
    runAndPersist env s₁ = .ok s₁
    ∧ ((dictGet store env.today).isSome → s₁ = store)
    ∧ ((store.map Prod.fst).Nodup → (s₁.map Prod.fst).Nodup) := by
  unfold runAndPersist at h ⊢
  split at h
  next hm =>
    cases h
    exact ⟨by rw [if_pos hm], fun _ => rfl, fun hd => hd⟩
  next hm =>
    split at h
    next hc =>
      cases h
      exact ⟨by rw [if_neg hm, if_pos hc], fun _ => rfl, fun hd => hd⟩
    next hc =>
      split at h
      next he =>
        cases h
        exact ⟨by rw [if_neg hm, if_neg hc, if_pos he], fun _ => rfl, fun hd => hd⟩
      next he =>
        split at h
        · exact absurd h (by simp)
        next g hg =>
          split at h
          · exact absurd h (by simp)
          next l hl =>
            split at h
            next hs =>
              cases h
              refine ⟨?_, fun _ => rfl, fun hd => hd⟩
              simp only [if_neg hm, if_neg hc, if_neg he, hg, hl, if_pos hs]
            next hs =>
              split at h
              next hk =>
                cases h
                refine ⟨?_, fun _ => rfl, fun hd => hd⟩
                simp only [if_neg hm, if_neg hc, if_neg he, hg, hl, if_neg hs,
                  if_pos hk]
              next hk =>
                cases h
                have hnone : dictGet store env.today = none :=
                  Option.not_isSome_iff_eq_none.mp hk
                refine ⟨?_, fun h' => absurd h' hk, fun hd => ?_⟩
                · simp only [if_neg hm, if_neg hc, if_neg he, hg, hl, if_neg hs]
                  rw [if_pos (by rw [dictGet_dictSet_self]; exact rfl)]
                · rw [dictSet_map_fst_of_none _ _ _ hnone]
                  refine List.Nodup.append hd (List.nodup_singleton _) ?_
                  intro a ha hb
                  rw [List.mem_singleton] at hb
                  subst hb
                  exact dictGet_eq_none_not_mem store env.today hnone ha

/-- Claim C8: when after enrichment no item carries a numeric signal
(a non-null close or a truthy `pct_change`), `run_and_persist` aborts
without persisting anything; conversely when at least one enriched item
carries a numeric signal and the other gates pass (market day, past the
cutoff, non-empty scrape, no record for today yet) the enriched record is
persisted under today's key. -/
theorem runAndPersist_signal_gate (env : AcqEnv) (store : Movers)
    (g l : List MoverItem)
    (hg : enrichPool env.detail env.gainers = .ok g)
    (hl : enrichPool env.detail env.losers = .ok l) :
    (((g ++ l).any hasNumericSignal = false) → runAndPersist env store = .ok store)
    ∧ ((g ++ l).any hasNumericSignal = true → env.marketDay = true →
        env.cutoffPassed = true → env.gainers ++ env.losers ≠ [] →
        dictGet store env.today = none →
        runAndPersist env store =
          .ok (dictSet store env.today ⟨env.nowIso, g, l⟩)
        ∧ dictGet (dictSet store env.today ⟨env.nowIso, g, l⟩) env.today
            = some ⟨env.nowIso, g, l⟩) := by
  constructor
  · intro hno
    cases hm : env.marketDay <;> cases hc : env.cutoffPassed <;>
      by_cases he : env.gainers ++ env.losers = [] <;>
        simp [runAndPersist, hm, hc, he, hg, hl, hno]
  · intro hyes hm hc he hnone
    refine ⟨?_, dictGet_dictSet_self _ _ _⟩
    simp [runAndPersist, hm, hc, he, hg, hl, hyes, hnone]

/-- A scraped mover item before enrichment. -/
def acqItem : MoverItem := ⟨"AAPL", "Apple", "190", "+5", "+2.7%", none, none, none⟩

/-- The same item after enrichment with open 1, close 2. -/
def acqItemEnr : MoverItem := ⟨"AAPL", "Apple", "190", "+5", "+2.7%", some 1, some 2, some 1⟩

/-- A detail source answering open 1, close 2, change 1 for any symbol. -/
def acqDetail : String → Detail := fun _ => ⟨some 1, some 2, some 1⟩

/-- An acquisition environment with every gate passing. -/
def acqEnvEx : AcqEnv :=
  ⟨"2024-01-02", "2024-01-02T20:05:00", true, true, [acqItem], [], acqDetail⟩

/-- The store contents after the first successful run. -/
def acqStore1 : Movers :=
  [("2024-01-02", ⟨"2024-01-02T20:05:00", [acqItemEnr], []⟩)]

/-- Witness for C7: a second run on the persisted store is a no-op. -/
theorem runAndPersist_idempotent_witness :
    runAndPersist acqEnvEx acqStore1 = .ok acqStore1 :=
  (runAndPersist_idempotent acqEnvEx [] acqStore1
    (by simp [runAndPersist, acqEnvEx, acqItem, acqItemEnr, acqDetail, acqStore1,
          enrichPool, enrichItem, symOf, firstToken, hasNumericSignal, dictGet,
          dictSet])).1

/-- Witness for C8: with a numeric signal and every gate passing, the
record is persisted under today's key. -/
theorem runAndPersist_signal_gate_witness :
    runAndPersist acqEnvEx [] =
      .ok (dictSet ([] : Movers) acqEnvEx.today
        (⟨acqEnvEx.nowIso, [acqItemEnr], []⟩ : MoversEntry))
    ∧ dictGet (dictSet ([] : Movers) acqEnvEx.today
        (⟨acqEnvEx.nowIso, [acqItemEnr], []⟩ : MoversEntry))
        acqEnvEx.today = some (⟨acqEnvEx.nowIso, [acqItemEnr], []⟩ : MoversEntry) :=
  (runAndPersist_signal_gate acqEnvEx [] [acqItemEnr] []
    (by simp [acqEnvEx, enrichPool, enrichItem, symOf, firstToken, acqItem,
          acqItemEnr, acqDetail])
    (by simp [acqEnvEx, enrichPool]))
    |>.2 (by simp [hasNumericSignal, acqItemEnr]) rfl rfl
      (by simp [acqEnvEx, acqItem]) rfl
